import Mathlib

/-!
Shallow embedding of the data-transformation pipeline of `src/app.py`
(Philippines maternal-health dashboard, 2021 data): the table
loader/normalizer (`load_data`, lines 84-122) and the filter/aggregate
logic (lines 153-195).  Pure Python/pandas operations are translated to
executable Lean functions over lists; missing cells (`NaN`) are `Option`
values; the one operation that can raise (`.iloc[0]` on an empty frame)
returns `Except`.
-/

/-- Boolean test that `pat` occurs at the start of `hay` (over `List Char`). -/
def startsB : List Char → List Char → Bool
  | [], _ => true
  | _ :: _, [] => false
  | p :: ps, h :: hs => p == h && startsB ps hs

/-- Boolean substring test over `List Char`; models Python's `x in s`. -/
def containsSub (pat : List Char) : List Char → Bool
  | [] => pat.isEmpty
  | h :: t => startsB pat (h :: t) || containsSub pat t

/-- Python's case-sensitive `pat in s` on strings. -/
def strIn (pat s : String) : Bool := containsSub pat.toList s.toList

theorem startsB_iff {p h : List Char} : startsB p h = true ↔ ∃ t, h = p ++ t := by
  induction p generalizing h with
  | nil => simp [startsB]
  | cons c cs ih =>
    cases h with
    | nil => simp [startsB]
    | cons a as =>
      simp only [startsB, Bool.and_eq_true, beq_iff_eq, ih, List.cons_append,
        List.cons.injEq]
      constructor
      · rintro ⟨rfl, t, rfl⟩; exact ⟨t, rfl, rfl⟩
      · rintro ⟨t, rfl, rfl⟩; exact ⟨rfl, t, rfl⟩

theorem containsSub_iff {p h : List Char} :
    containsSub p h = true ↔ ∃ l r, h = l ++ p ++ r := by
  induction h with
  | nil =>
    simp only [containsSub, List.isEmpty_iff]
    constructor
    · rintro rfl; exact ⟨[], [], rfl⟩
    · rintro ⟨l, r, hl⟩
      rcases List.append_eq_nil.mp hl.symm with ⟨h1, h2⟩
      exact (List.append_eq_nil.mp h1).2
  | cons a t ih =>
    simp only [containsSub, Bool.or_eq_true, startsB_iff, ih]
    constructor
    · rintro (⟨s, hs⟩ | ⟨l, r, hr⟩)
      · exact ⟨[], s, by simpa using hs⟩
      · exact ⟨a :: l, r, by simp [hr]⟩
    · rintro ⟨l, r, hr⟩
      cases l with
      | nil => exact Or.inl ⟨r, by simpa using hr⟩
      | cons x xs =>
        right
        simp only [List.cons_append, List.cons.injEq] at hr
        exact ⟨xs, r, hr.2⟩

theorem containsSub_trans {a b c : List Char} (h1 : containsSub a b = true)
    (h2 : containsSub b c = true) : containsSub a c = true := by
  rw [containsSub_iff] at h1 h2 ⊢
  obtain ⟨l1, r1, rfl⟩ := h1
  obtain ⟨l2, r2, rfl⟩ := h2
  exact ⟨l2 ++ l1, r1 ++ r2, by simp⟩

/-- The four island-group classifications produced by `get_island_group`. -/
inductive IslandGroup where
  | Luzon
  | Visayas
  | Mindanao
  | Other
  deriving DecidableEq, Repr

/-- Luzon pattern list of `get_island_group` (src/app.py line 93). -/
def luzon_pats : List String :=
  ["NCR", "CAR", "REGION I", "REGION II", "REGION III", "REGION IV", "MIMAROPA", "REGION V"]

/-- Visayas pattern list of `get_island_group` (line 95). -/
def visayas_pats : List String := ["REGION VI", "REGION VII", "REGION VIII"]

/-- Mindanao pattern list of `get_island_group` (line 97). -/
def mindanao_pats : List String :=
  ["REGION IX", "REGION X", "REGION XI", "REGION XII", "CARAGA", "BARMM"]

/-- Uppercased text of a place, as `str(place).upper()` (per-character ASCII upper). -/
def upChars (place : String) : List Char := place.toList.map Char.toUpper

/-- Model of `get_island_group` (src/app.py lines 91-99): uppercase the place,
then test the three pattern lists in order, `Other` as fallback. -/
def get_island_group (place : String) : IslandGroup :=
  let p := upChars place
  if luzon_pats.any (fun x => containsSub x.toList p) then .Luzon
  else if visayas_pats.any (fun x => containsSub x.toList p) then .Visayas
  else if mindanao_pats.any (fun x => containsSub x.toList p) then .Mindanao
  else .Other

/-- Model of the `IsRegion` lambda (line 102).  Note the original place text is
used directly: the containment tests are case-sensitive. -/
def is_region (place : String) : Bool :=
  strIn "REGION" place || strIn "NCR" place || strIn "CAR" place || strIn "BARMM" place

/-- The nine fixed age brackets (the melt `value_vars`, in column order:
Under 15, 15-19, 20-24, 25-29, 30-34, 35-39, 40-44, 45-49, 50+). -/
inductive AgeGroup where
  | under15
  | a15_19
  | a20_24
  | a25_29
  | a30_34
  | a35_39
  | a40_44
  | a45_49
  | a50plus
  deriving DecidableEq, Repr

/-- The nine age-bracket columns melted by `load_data`, in column order. -/
def ageList : List AgeGroup :=
  [.under15, .a15_19, .a20_24, .a25_29, .a30_34, .a35_39, .a40_44, .a45_49, .a50plus]

/-- Digit-list accumulator for numeral parsing. -/
def digitsValAux : List Char → Nat → Option Nat
  | [], acc => some acc
  | c :: cs, acc => if c.isDigit then digitsValAux cs (acc * 10 + (c.toNat - 48)) else none

/-- Numeric value of a non-empty digit string; `none` when empty or a non-digit occurs. -/
def digitsVal (l : List Char) : Option Nat :=
  match l with
  | [] => none
  | _ => digitsValAux l 0

/-- Model of `pd.to_numeric(x, errors=coerce)` on a string cell, restricted to
optionally-signed integer numerals: non-numeric strings coerce to `none` (NaN). -/
def parseNum (s : String) : Option Int :=
  match s.toList with
  | '-' :: rest => (digitsVal rest).map (fun n => -(n : Int))
  | l => (digitsVal l).map (fun n => (n : Int))

/-- `pd.to_numeric(..., errors=coerce)` over a possibly-missing cell. -/
def toNumCell (cell : Option String) : Option Int := cell.bind parseNum

/-- Deaths value of one melted cell after
`pd.to_numeric(..., errors=coerce).fillna(0)` (lines 108 and 120). -/
def normDeaths (cell : Option String) : Int := (toNumCell cell).getD 0

/-- A raw geography row after `read_csv`/column renaming (lines 86-87): the
`Place` cell, the discarded `Total` cell, and the nine age-bracket cells,
each possibly missing (NaN). -/
structure GeoRow where
  place : Option String
  total : Option String
  cells : AgeGroup → Option String

/-- One long-form geography record produced by the melt (lines 105-108). -/
structure GeoRecord where
  place : String
  isRegion : Bool
  islandGroup : IslandGroup
  ageGroup : AgeGroup
  deaths : Int
  deriving DecidableEq, Repr

/-- A raw cause row after `read_csv`/column renaming (lines 111-112). -/
structure CauseRow where
  icd : Option String
  cause : Option String
  total : Option String
  cells : AgeGroup → Option String

/-- One long-form cause record produced by the melt (lines 117-120).  The
`Cause` cell can be missing (only `ICD Code` is dropna-filtered), hence `Option`. -/
structure CauseRecord where
  icdCode : String
  cause : Option String
  ageGroup : AgeGroup
  deaths : Int
  deriving DecidableEq, Repr

/-- Model of the geography half of `load_data` (lines 86-108): drop rows with a
missing `Place`, derive `Island Group` and `IsRegion`, melt the nine age
columns (pandas `melt` stacks one age column at a time over all rows), and
normalize `Deaths`. -/
def load_geo (rows : List GeoRow) : List GeoRecord :=
  let df := rows.filter (fun r => r.place.isSome)
  ageList.flatMap (fun a =>
    df.map (fun r =>
      let p := r.place.getD ""
      { place := p, isRegion := is_region p, islandGroup := get_island_group p,
        ageGroup := a, deaths := normDeaths (r.cells a) }))

/-- Model of the cause half of `load_data` (lines 111-120): drop rows with a
missing `ICD Code`, drop embedded header-echo rows whose code equals
"ICD-10 Code", melt the nine age columns, and normalize `Deaths`. -/
def load_cause (rows : List CauseRow) : List CauseRecord :=
  let d1 := rows.filter (fun r => r.icd.isSome)
  let d2 := d1.filter (fun r => !(r.icd.getD "" == "ICD-10 Code"))
  ageList.flatMap (fun a =>
    d2.map (fun r =>
      { icdCode := r.icd.getD "", cause := r.cause, ageGroup := a,
        deaths := normDeaths (r.cells a) }))

/-- C8: the island-group classifier is total and deterministic: it yields one of
the four classifications for every place string, depends only on the
uppercased (case-insensitive) text, and its branches are mutually exclusive
by precedence (the Luzon pattern set decides before the Visayas set, which
decides before the Mindanao set). -/
theorem island_group_total (s t : String) (h : upChars s = upChars t) :
    get_island_group s = get_island_group t ∧
    (get_island_group s = .Luzon ∨ get_island_group s = .Visayas ∨
      get_island_group s = .Mindanao ∨ get_island_group s = .Other) ∧
    (get_island_group s = .Luzon ↔
      luzon_pats.any (fun x => containsSub x.toList (upChars s)) = true) ∧
    (get_island_group s = .Visayas ↔
      (luzon_pats.any (fun x => containsSub x.toList (upChars s)) = false ∧
       visayas_pats.any (fun x => containsSub x.toList (upChars s)) = true)) ∧
    (get_island_group s = .Mindanao ↔
      (luzon_pats.any (fun x => containsSub x.toList (upChars s)) = false ∧
       visayas_pats.any (fun x => containsSub x.toList (upChars s)) = false ∧
       mindanao_pats.any (fun x => containsSub x.toList (upChars s)) = true)) ∧
    (get_island_group s = .Other ↔
      (luzon_pats.any (fun x => containsSub x.toList (upChars s)) = false ∧
       visayas_pats.any (fun x => containsSub x.toList (upChars s)) = false ∧
       mindanao_pats.any (fun x => containsSub x.toList (upChars s)) = false)) := by
  refine ⟨by simp only [get_island_group, h], ?_⟩
  simp only [get_island_group]
  cases hl : luzon_pats.any (fun x => containsSub x.toList (upChars s)) <;>
    cases hv : visayas_pats.any (fun x => containsSub x.toList (upChars s)) <;>
      cases hm : mindanao_pats.any (fun x => containsSub x.toList (upChars s)) <;>
        simp [hl, hv, hm]

theorem island_group_total_witness :
    get_island_group "Cebu" = get_island_group "CEBU" ∧
    (get_island_group "Cebu" = .Luzon ∨ get_island_group "Cebu" = .Visayas ∨
      get_island_group "Cebu" = .Mindanao ∨ get_island_group "Cebu" = .Other) :=
  ⟨(island_group_total "Cebu" "CEBU" (by decide)).1,
   (island_group_total "Cebu" "CEBU" (by decide)).2.1⟩

/-- C10: any place whose uppercased text contains "CARAGA" or "REGION IX" is
classified Luzon, because the Luzon patterns "CAR" and "REGION I" already
match such text and the Luzon branch is checked first. -/
theorem caraga_region_ix_luzon (place : String)
    (h : containsSub "CARAGA".toList (upChars place) = true ∨
         containsSub "REGION IX".toList (upChars place) = true) :
    get_island_group place = .Luzon := by
  have hl : luzon_pats.any (fun x => containsSub x.toList (upChars place)) = true := by
    rw [List.any_eq_true]
    rcases h with h | h
    · exact ⟨"CAR", by decide, containsSub_trans (by decide) h⟩
    · exact ⟨"REGION I", by decide, containsSub_trans (by decide) h⟩
  simp only [get_island_group, hl, if_true]

theorem caraga_region_ix_luzon_witness :
    get_island_group "Caraga" = .Luzon ∧ get_island_group "Region IX" = .Luzon :=
  ⟨caraga_region_ix_luzon "Caraga" (Or.inl (by decide)),
   caraga_region_ix_luzon "Region IX" (Or.inr (by decide))⟩

/-- The concrete geography row of the C9 scenario:
`["Region IV-A", 10, 0,0,1,2,3,2,1,1,0]`. -/
def region4aRow : GeoRow where
  place := some "Region IV-A"
  total := some "10"
  cells := fun a =>
    match a with
    | .under15 => some "0"
    | .a15_19 => some "0"
    | .a20_24 => some "1"
    | .a25_29 => some "2"
    | .a30_34 => some "3"
    | .a35_39 => some "2"
    | .a40_44 => some "1"
    | .a45_49 => some "1"
    | .a50plus => some "0"

/-- C9 counterexample: loading the scenario row produces records with
`isRegion = false`, refuting the claimed `isRegion = true` (the `IsRegion`
lambda matches its uppercase tokens case-sensitively, and "Region IV-A"
contains none of them). -/
theorem region4a_isregion_cex :
    (load_geo [region4aRow]).length = 9 ∧
    (load_geo [region4aRow]).all (fun r => !r.isRegion) = true := by decide

/-- C9 (amended): loading the scenario row classifies it `islandGroup = Luzon`,
melts it into exactly 9 long-form records whose deaths sum to 10, but sets
`isRegion = false` because the case-sensitive token check does not match
"Region IV-A". -/
theorem region4a_row_loading :
    (load_geo [region4aRow]).length = 9 ∧
    (load_geo [region4aRow]).all (fun r => r.islandGroup == .Luzon) = true ∧
    (load_geo [region4aRow]).all (fun r => r.isRegion == false) = true ∧
    ((load_geo [region4aRow]).map (fun r => r.deaths)).sum = 10 := by decide

/-- One pattern character matching one text character under `re.IGNORECASE`:
the wildcard matches anything, a literal matches case-insensitively.  Models
the regex fragment that `str.contains(search, case=False)` receives here
(literal characters plus the metacharacter for "any character"). -/
def patCharMatches (p c : Char) : Bool :=
  if p == '.' then true else p.toLower == c.toLower

/-- The pattern matches a prefix of the text. -/
def matchesAt : List Char → List Char → Bool
  | [], _ => true
  | _ :: _, [] => false
  | p :: ps, c :: cs => patCharMatches p c && matchesAt ps cs

/-- Model of Python `re.search` with `re.IGNORECASE` on the supported pattern
fragment: does the pattern match at some position of the text? -/
def reSearch (pat : List Char) : List Char → Bool
  | [] => matchesAt pat []
  | c :: t => matchesAt pat (c :: t) || reSearch pat t

/-- The search predicate of `.str.contains(search_cause, case=False, na=False)`
(line 164): a missing cause never matches (`na=False`); otherwise the search
string is interpreted as a regular expression, case-insensitively. -/
def causeMatches (pat : String) (cause : Option String) : Bool :=
  match cause with
  | none => false
  | some c => reSearch pat.toList c.toList

/-- Spec-side notion, from the spec's words, for comparison with the code:
case-insensitive substring containment of `pat` in `hay`. -/
def specContainsCI (pat hay : String) : Bool :=
  containsSub (pat.toList.map Char.toLower) (hay.toList.map Char.toLower)

/-- Python `re` metacharacters; a search string avoiding all of them is a plain
literal pattern. -/
def reMeta : List Char :=
  ['.', '^', '$', '*', '+', '?', '\x7b', '\x7d', '[', ']', '\\', '|', '(', ')']

/-- A user filter selection: the three sidebar controls (lines 135-150). -/
structure Selection where
  ages : List AgeGroup
  islands : List IslandGroup
  search : String

/-- Model of the cause-table filter logic (lines 153-157 and 163-164): an empty
multiselect or an empty search string means no filter (Python truthiness). -/
def filtered_cause (sel : Selection) (rs : List CauseRecord) : List CauseRecord :=
  let byAge := if sel.ages.isEmpty then rs
    else rs.filter (fun r => decide (r.ageGroup ∈ sel.ages))
  if sel.search.isEmpty then byAge
  else byAge.filter (fun r => causeMatches sel.search r.cause)

/-- Model of the geography-table filter logic (lines 153-161). -/
def filtered_geo (sel : Selection) (rs : List GeoRecord) : List GeoRecord :=
  let byAge := if sel.ages.isEmpty then rs
    else rs.filter (fun r => decide (r.ageGroup ∈ sel.ages))
  if sel.islands.isEmpty then byAge
  else byAge.filter (fun r => decide (r.islandGroup ∈ sel.islands))

theorem mem_filtered_cause {sel : Selection} {rs : List CauseRecord} {r : CauseRecord} :
    r ∈ filtered_cause sel rs ↔
      r ∈ rs ∧ (sel.ages = [] ∨ r.ageGroup ∈ sel.ages) ∧
        (sel.search = "" ∨ causeMatches sel.search r.cause = true) := by
  unfold filtered_cause
  cases ha : sel.ages.isEmpty <;> cases hs : sel.search.isEmpty
  · have ha' : ¬ sel.ages = [] := fun e => by simp [e] at ha
    have hs' : ¬ sel.search = "" := fun e => by rw [e] at hs; exact absurd hs (by decide)
    simp [List.mem_filter, ha', hs']
    tauto
  · have ha' : ¬ sel.ages = [] := fun e => by simp [e] at ha
    have hs' : sel.search = "" := (String.isEmpty_iff sel.search).mp hs
    simp [List.mem_filter, ha', hs']
  · have ha' : sel.ages = [] := List.isEmpty_iff.mp ha
    have hs' : ¬ sel.search = "" := fun e => by rw [e] at hs; exact absurd hs (by decide)
    simp [List.mem_filter, ha', hs']
  · have ha' : sel.ages = [] := List.isEmpty_iff.mp ha
    have hs' : sel.search = "" := (String.isEmpty_iff sel.search).mp hs
    simp [ha', hs']

theorem mem_filtered_geo {sel : Selection} {rs : List GeoRecord} {r : GeoRecord} :
    r ∈ filtered_geo sel rs ↔
      r ∈ rs ∧ (sel.ages = [] ∨ r.ageGroup ∈ sel.ages) ∧
        (sel.islands = [] ∨ r.islandGroup ∈ sel.islands) := by
  unfold filtered_geo
  cases ha : sel.ages.isEmpty <;> cases hi : sel.islands.isEmpty
  · have ha' : ¬ sel.ages = [] := fun e => by simp [e] at ha
    have hi' : ¬ sel.islands = [] := fun e => by simp [e] at hi
    simp [List.mem_filter, ha', hi']
    tauto
  · have ha' : ¬ sel.ages = [] := fun e => by simp [e] at ha
    have hi' : sel.islands = [] := List.isEmpty_iff.mp hi
    simp [List.mem_filter, ha', hi']
  · have ha' : sel.ages = [] := List.isEmpty_iff.mp ha
    have hi' : ¬ sel.islands = [] := fun e => by simp [e] at hi
    simp [List.mem_filter, ha', hi']
  · have ha' : sel.ages = [] := List.isEmpty_iff.mp ha
    have hi' : sel.islands = [] := List.isEmpty_iff.mp hi
    simp [ha', hi']

theorem matchesAt_no_dot {p : List Char} (hp : ('.' : Char) ∉ p) (h : List Char) :
    matchesAt p h = startsB (p.map Char.toLower) (h.map Char.toLower) := by
  induction p generalizing h with
  | nil => cases h <;> simp [matchesAt, startsB]
  | cons c cs ih =>
    have hcc : c ≠ '.' := by
      intro e
      exact hp (by rw [← e]; exact List.mem_cons_self _ _)
    have hc : (c == '.') = false := beq_eq_false_iff_ne.mpr hcc
    cases h with
    | nil => simp [matchesAt, startsB]
    | cons a as =>
      simp only [matchesAt, startsB, List.map_cons, patCharMatches, hc,
        Bool.false_eq_true, if_false]
      rw [ih (fun hm => hp (List.mem_cons_of_mem _ hm))]

theorem reSearch_no_dot {p : List Char} (hp : ('.' : Char) ∉ p) (h : List Char) :
    reSearch p h = containsSub (p.map Char.toLower) (h.map Char.toLower) := by
  induction h with
  | nil =>
    cases p with
    | nil => simp [reSearch, matchesAt, containsSub]
    | cons c cs => simp [reSearch, matchesAt, containsSub]
  | cons a as ih =>
    simp only [reSearch, containsSub, List.map_cons]
    rw [matchesAt_no_dot hp, ih]
    simp [List.map_cons]

/-- C2 (amended): the search filter interprets the search string as a regular
expression (pandas `str.contains` default), so the substring reading holds
exactly for search strings free of regex metacharacters: such a record is
kept iff its cause is present and contains the string case-insensitively;
an empty string keeps every record, and a missing cause never matches a
non-empty string. -/
theorem cause_search_substring_semantics (s : String) (rs : List CauseRecord)
    (r : CauseRecord) (hs : ∀ c ∈ s.toList, c ∉ reMeta) :
    r ∈ filtered_cause ⟨[], [], s⟩ rs ↔
      r ∈ rs ∧ (s = "" ∨ ∃ cz, r.cause = some cz ∧ specContainsCI s cz = true) := by
  have hdot : ('.' : Char) ∉ s.toList := fun hm => hs _ hm (by decide)
  rw [mem_filtered_cause]
  have key : causeMatches s r.cause = true ↔
      ∃ cz, r.cause = some cz ∧ specContainsCI s cz = true := by
    cases hc : r.cause with
    | none => simp [causeMatches]
    | some c =>
      simp only [causeMatches]
      rw [reSearch_no_dot hdot]
      constructor
      · intro hx
        exact ⟨c, rfl, hx⟩
      · rintro ⟨cz, hcz, hx⟩
        obtain rfl : c = cz := by injection hcz
        exact hx
  simp only [key, true_or, true_and]

/-- The concrete record of the C2 counterexample. -/
def dotRecord : CauseRecord :=
  { icdCode := "O00", cause := some "Abc", ageGroup := .a20_24, deaths := 1 }

/-- C2 counterexample: with search string "." the filter keeps a record whose
cause "Abc" does not contain "." as a (case-insensitive) substring, because
pandas `str.contains` treats the search string as a regular expression; the
claimed substring iff is false for this search string. -/
theorem cause_search_regex_cex :
    filtered_cause ⟨[], [], "."⟩ [dotRecord] = [dotRecord] ∧
    specContainsCI "." "Abc" = false := by decide

/-- First scenario record: mixed-case hemorrhage cause. -/
def hr1 : CauseRecord :=
  { icdCode := "O72", cause := some "Postpartum Hemorrhage", ageGroup := .a20_24, deaths := 3 }

/-- Second scenario record: upper-case hemorrhage cause. -/
def hr2 : CauseRecord :=
  { icdCode := "O72", cause := some "POSTPARTUM HEMORRHAGE", ageGroup := .a25_29, deaths := 2 }

/-- Third scenario record: a non-hemorrhage cause. -/
def hr3 : CauseRecord :=
  { icdCode := "O64", cause := some "Obstructed Labor", ageGroup := .a20_24, deaths := 1 }

/-- The cause list of the C2 scenario. -/
def hemorrhageRecs : List CauseRecord := [hr1, hr2, hr3]

theorem cause_search_substring_witness :
    hr1 ∈ filtered_cause ⟨[], [], "hemorrhage"⟩ hemorrhageRecs ∧
    hr2 ∈ filtered_cause ⟨[], [], "hemorrhage"⟩ hemorrhageRecs ∧
    hr3 ∉ filtered_cause ⟨[], [], "hemorrhage"⟩ hemorrhageRecs := by
  refine ⟨?_, ?_, ?_⟩
  · exact (cause_search_substring_semantics "hemorrhage" hemorrhageRecs hr1 (by decide)).mpr
      ⟨by decide, Or.inr ⟨"Postpartum Hemorrhage", rfl, by decide⟩⟩
  · exact (cause_search_substring_semantics "hemorrhage" hemorrhageRecs hr2 (by decide)).mpr
      ⟨by decide, Or.inr ⟨"POSTPARTUM HEMORRHAGE", rfl, by decide⟩⟩
  · intro hmem
    have h := (cause_search_substring_semantics "hemorrhage" hemorrhageRecs hr3 (by decide)).mp hmem
    rcases h.2 with h0 | ⟨cz, hcz, hsub⟩
    · exact absurd h0 (by decide)
    · simp only [hr3, Option.some.injEq] at hcz
      subst hcz
      exact absurd hsub (by decide)

/-- All four island-group classifications (the full value domain of the
island-group criterion, including the `Other` bucket retained in the data). -/
def allIslands : List IslandGroup := [.Luzon, .Visayas, .Mindanao, .Other]

theorem mem_ageList (a : AgeGroup) : a ∈ ageList := by cases a <;> decide

theorem mem_allIslands (g : IslandGroup) : g ∈ allIslands := by cases g <;> decide

theorem filtered_cause_nil_ages (islands : List IslandGroup) (s : String)
    (rs : List CauseRecord) :
    filtered_cause ⟨[], islands, s⟩ rs =
      (if s.isEmpty then rs else rs.filter (fun r => causeMatches s r.cause)) := rfl

theorem filtered_cause_ageList (islands : List IslandGroup) (s : String)
    (rs : List CauseRecord) :
    filtered_cause ⟨ageList, islands, s⟩ rs =
      (if s.isEmpty then rs.filter (fun r => decide (r.ageGroup ∈ ageList))
       else (rs.filter (fun r => decide (r.ageGroup ∈ ageList))).filter
         (fun r => causeMatches s r.cause)) := rfl

theorem filtered_geo_nil_ages (islands : List IslandGroup) (s : String)
    (rs : List GeoRecord) :
    filtered_geo ⟨[], islands, s⟩ rs =
      (if islands.isEmpty then rs
       else rs.filter (fun r => decide (r.islandGroup ∈ islands))) := rfl

theorem filtered_geo_ageList (islands : List IslandGroup) (s : String)
    (rs : List GeoRecord) :
    filtered_geo ⟨ageList, islands, s⟩ rs =
      (if islands.isEmpty then rs.filter (fun r => decide (r.ageGroup ∈ ageList))
       else (rs.filter (fun r => decide (r.ageGroup ∈ ageList))).filter
         (fun r => decide (r.islandGroup ∈ islands))) := rfl

theorem filtered_geo_nil_islands (ages : List AgeGroup) (s : String)
    (rs : List GeoRecord) :
    filtered_geo ⟨ages, [], s⟩ rs =
      (if ages.isEmpty then rs
       else rs.filter (fun r => decide (r.ageGroup ∈ ages))) := rfl

theorem filtered_geo_allIslands (ages : List AgeGroup) (s : String)
    (rs : List GeoRecord) :
    filtered_geo ⟨ages, allIslands, s⟩ rs =
      ((if ages.isEmpty then rs
        else rs.filter (fun r => decide (r.ageGroup ∈ ages))).filter
          (fun r => decide (r.islandGroup ∈ allIslands))) := rfl

/-- C7: empty-selection semantics: an empty age-group selection filters exactly
like selecting all nine age groups, an empty island-group selection filters
exactly like selecting all four island-group values, and with every
selection empty (and empty search) both tables pass through unfiltered. -/
theorem empty_selection_select_all (ages : List AgeGroup) (islands : List IslandGroup)
    (s : String) (rsC : List CauseRecord) (rsG : List GeoRecord) :
    filtered_cause ⟨[], islands, s⟩ rsC = filtered_cause ⟨ageList, islands, s⟩ rsC ∧
    filtered_geo ⟨[], islands, s⟩ rsG = filtered_geo ⟨ageList, islands, s⟩ rsG ∧
    filtered_geo ⟨ages, [], s⟩ rsG = filtered_geo ⟨ages, allIslands, s⟩ rsG ∧
    filtered_cause ⟨[], [], ""⟩ rsC = rsC ∧
    filtered_geo ⟨[], [], ""⟩ rsG = rsG := by
  have hC : rsC.filter (fun r => decide (r.ageGroup ∈ ageList)) = rsC :=
    List.filter_eq_self.mpr (fun a _ => decide_eq_true (mem_ageList a.ageGroup))
  have hG : rsG.filter (fun r => decide (r.ageGroup ∈ ageList)) = rsG :=
    List.filter_eq_self.mpr (fun a _ => decide_eq_true (mem_ageList a.ageGroup))
  have hI : ∀ l : List GeoRecord, l.filter (fun r => decide (r.islandGroup ∈ allIslands)) = l :=
    fun l => List.filter_eq_self.mpr (fun a _ => decide_eq_true (mem_allIslands a.islandGroup))
  refine ⟨?_, ?_, ?_, rfl, rfl⟩
  · rw [filtered_cause_nil_ages, filtered_cause_ageList, hC]
  · rw [filtered_geo_nil_ages, filtered_geo_ageList, hG]
  · rw [filtered_geo_nil_islands, filtered_geo_allIslands, hI]

/-- Model of `int(filtered_cause[Deaths].sum())` (line 173). -/
def total_deaths (rs : List CauseRecord) : Int := (rs.map (fun r => r.deaths)).sum

/-- Model of `int(filtered_geo[filtered_geo[IsRegion]][Deaths].sum())` (line 174). -/
def geo_deaths (rs : List GeoRecord) : Int :=
  ((rs.filter (fun r => r.isRegion)).map (fun r => r.deaths)).sum

/-- Insert a cause key into a sorted list of distinct keys (ascending string
order); models the sorted unique group keys of pandas `groupby` with its
default `sort=True`. -/
def insertKey (c : String) : List String → List String
  | [] => [c]
  | k :: ks =>
    if c == k then k :: ks
    else if compare c k == Ordering.lt then c :: k :: ks
    else k :: insertKey c ks

/-- The group keys of `groupby(Cause)` over a record list: the distinct
non-missing causes in ascending order (NaN keys are dropped by groupby). -/
def keysOf : List CauseRecord → List String
  | [] => []
  | r :: t =>
    match r.cause with
    | none => keysOf t
    | some c => insertKey c (keysOf t)

/-- Summed `Deaths` of the group of one cause key. -/
def groupSum (rs : List CauseRecord) (k : String) : Int :=
  ((rs.filter (fun r => r.cause == some k)).map (fun r => r.deaths)).sum

/-- Model of `groupby(Cause)[Deaths].sum().reset_index()` (lines 177 and 195):
one (cause, summed deaths) pair per group key, in key order. -/
def cause_grouped (rs : List CauseRecord) : List (String × Int) :=
  (keysOf rs).map (fun k => (k, groupSum rs k))

/-- Insertion step for the descending sort below. -/
def insertDesc (x : String × Int) : List (String × Int) → List (String × Int)
  | [] => [x]
  | y :: ys => if x.2 ≥ y.2 then x :: y :: ys else y :: insertDesc x ys

/-- Model of `sort_values(Deaths, ascending=False)`: one executable
refinement of it, sorting descending on the summed-deaths column.  pandas
uses the default unstable quicksort here, so the program guarantees only
that the output is some permutation of the groups in descending value
order, not which tied group comes first; accordingly every theorem below
relies only on `sortDesc_perm` and `sortDesc_pairwise`, never on the tie
order this particular refinement happens to produce. -/
def sortDesc : List (String × Int) → List (String × Int)
  | [] => []
  | x :: xs => insertDesc x (sortDesc xs)

/-- Model of lines 176-180: the sentinel "None" when the filtered frame is
empty, otherwise the `Cause` field of `.iloc[0]` of the grouped,
descending-sorted frame.  `.iloc[0]` raises `IndexError` when every cause
is missing: grouping drops the NaN keys and leaves an empty frame. -/
def top_cause_name (rs : List CauseRecord) : Except String String :=
  if rs.isEmpty then .ok "None"
  else
    match sortDesc (cause_grouped rs) with
    | [] => .error "IndexError"
    | (c, _) :: _ => .ok c

/-- Model of `cause_summary` (lines 194-195): the top-10 causes by summed
deaths; the chart branch runs only on a non-empty frame, so the empty case
yields the empty list. -/
def cause_summary (rs : List CauseRecord) : List (String × Int) :=
  if rs.isEmpty then [] else (sortDesc (cause_grouped rs)).take 10

theorem mem_insertKey {a c : String} {l : List String} :
    a ∈ insertKey c l ↔ a = c ∨ a ∈ l := by
  induction l with
  | nil => simp [insertKey]
  | cons k ks ih =>
    rw [insertKey]
    split
    · next h =>
      have hck : c = k := beq_iff_eq.mp h
      subst hck
      simp only [List.mem_cons]
      tauto
    · split
      · simp only [List.mem_cons]
      · simp only [List.mem_cons, ih]
        tauto

theorem mem_keysOf {k : String} {rs : List CauseRecord} :
    k ∈ keysOf rs ↔ ∃ r ∈ rs, r.cause = some k := by
  induction rs with
  | nil => simp [keysOf]
  | cons r t ih =>
    rw [keysOf]
    cases hc : r.cause with
    | none =>
      simp only [ih, List.mem_cons]
      constructor
      · rintro ⟨r', hr', he⟩
        exact ⟨r', Or.inr hr', he⟩
      · rintro ⟨r', hr' | hr', he⟩
        · rw [hr', hc] at he
          exact absurd he (by simp)
        · exact ⟨r', hr', he⟩
    | some c =>
      simp only [mem_insertKey, ih, List.mem_cons]
      constructor
      · rintro (rfl | ⟨r', hr', he⟩)
        · exact ⟨r, Or.inl rfl, hc⟩
        · exact ⟨r', Or.inr hr', he⟩
      · rintro ⟨r', hr' | hr', he⟩
        · rw [hr', hc] at he
          exact Or.inl (by injection he with h'; exact h'.symm)
        · exact Or.inr ⟨r', hr', he⟩

theorem mem_insertDesc {b x : String × Int} {l : List (String × Int)} :
    b ∈ insertDesc x l ↔ b = x ∨ b ∈ l := by
  induction l with
  | nil => simp [insertDesc]
  | cons y ys ih =>
    rw [insertDesc]
    split
    · simp only [List.mem_cons]
    · simp only [List.mem_cons, ih]
      tauto

theorem insertDesc_perm (x : String × Int) (l : List (String × Int)) :
    List.Perm (insertDesc x l) (x :: l) := by
  induction l with
  | nil => exact List.Perm.refl _
  | cons y ys ih =>
    rw [insertDesc]
    split
    · exact List.Perm.refl _
    · exact (List.Perm.cons y ih).trans (List.Perm.swap x y ys)

theorem sortDesc_perm (l : List (String × Int)) : List.Perm (sortDesc l) l := by
  induction l with
  | nil => exact List.Perm.refl _
  | cons x xs ih =>
    rw [sortDesc]
    exact (insertDesc_perm x (sortDesc xs)).trans (List.Perm.cons x ih)

theorem pairwise_insertDesc {x : String × Int} {l : List (String × Int)}
    (h : List.Pairwise (fun a b : String × Int => b.2 ≤ a.2) l) :
    List.Pairwise (fun a b : String × Int => b.2 ≤ a.2) (insertDesc x l) := by
  induction l with
  | nil => simp [insertDesc]
  | cons y ys ih =>
    rw [List.pairwise_cons] at h
    obtain ⟨hy, hys⟩ := h
    rw [insertDesc]
    split
    · next hge =>
      rw [List.pairwise_cons]
      refine ⟨?_, ?_⟩
      · intro b hb
        rcases List.mem_cons.mp hb with rfl | hb2
        · exact hge
        · exact le_trans (hy b hb2) hge
      · rw [List.pairwise_cons]
        exact ⟨hy, hys⟩
    · next hlt =>
      rw [List.pairwise_cons]
      refine ⟨?_, ih hys⟩
      intro b hb
      rcases mem_insertDesc.mp hb with rfl | hb2
      · omega
      · exact hy b hb2

theorem sortDesc_pairwise (l : List (String × Int)) :
    List.Pairwise (fun a b : String × Int => b.2 ≤ a.2) (sortDesc l) := by
  induction l with
  | nil => simp [sortDesc]
  | cons x xs ih =>
    rw [sortDesc]
    exact pairwise_insertDesc ih

theorem sortDesc_head_max {l : List (String × Int)} {m : String × Int}
    {t : List (String × Int)} (h : sortDesc l = m :: t) :
    m ∈ l ∧ ∀ p ∈ l, p.2 ≤ m.2 := by
  have hperm := sortDesc_perm l
  rw [h] at hperm
  refine ⟨hperm.mem_iff.mp (List.mem_cons_self m t), ?_⟩
  intro p hp
  have hp2 : p ∈ m :: t := hperm.mem_iff.mpr hp
  rcases List.mem_cons.mp hp2 with rfl | hp3
  · exact le_refl _
  · have hpw := sortDesc_pairwise l
    rw [h, List.pairwise_cons] at hpw
    exact hpw.1 p hp3


/-- C1 (amended): for every filter selection, a filtered cause set whose
records all have zero deaths yields `totalDeaths = 0`; and on an empty
filtered set every aggregate yields its zero/empty result without raising:
`totalDeaths = 0`, leading cause "None", empty top-10 list.  (A non-empty
all-zero set keeps a real leading cause and a non-empty top-10 list; see
the counterexample.) -/
theorem aggregates_on_empty_and_allzero (sel : Selection) (rs : List CauseRecord) :
    ((∀ r ∈ filtered_cause sel rs, r.deaths = 0) →
      total_deaths (filtered_cause sel rs) = 0) ∧
    (filtered_cause sel rs = [] →
      total_deaths (filtered_cause sel rs) = 0 ∧
      top_cause_name (filtered_cause sel rs) = .ok "None" ∧
      cause_summary (filtered_cause sel rs) = []) := by
  constructor
  · intro hz
    rw [total_deaths]
    apply List.sum_eq_zero
    intro x hx
    obtain ⟨r, hr, rfl⟩ := List.mem_map.mp hx
    exact hz r hr
  · intro he
    rw [he]
    exact ⟨rfl, rfl, rfl⟩

deriving instance DecidableEq for Except

/-- The all-zero-death record of the C1 counterexample. -/
def zeroRecord : CauseRecord :=
  { icdCode := "O72", cause := some "Postpartum Hemorrhage", ageGroup := .a20_24, deaths := 0 }

/-- C1 counterexample: under the no-op filter selection, a non-empty filtered
set whose every record has zero deaths still yields a real leading cause and
a non-empty top-10 list — not the claimed "None" and empty list. -/
theorem allzero_nonempty_cex :
    (filtered_cause ⟨[], [], ""⟩ [zeroRecord]).all (fun r => r.deaths == 0) = true ∧
    top_cause_name (filtered_cause ⟨[], [], ""⟩ [zeroRecord]) ≠ .ok "None" ∧
    cause_summary (filtered_cause ⟨[], [], ""⟩ [zeroRecord]) ≠ [] := by decide

theorem aggregates_on_empty_witness :
    total_deaths (filtered_cause ⟨[], [], ""⟩ [zeroRecord]) = 0 ∧
    total_deaths (filtered_cause ⟨[], [], ""⟩ []) = 0 ∧
    top_cause_name (filtered_cause ⟨[], [], ""⟩ []) = .ok "None" ∧
    cause_summary (filtered_cause ⟨[], [], ""⟩ []) = [] := by
  refine ⟨(aggregates_on_empty_and_allzero ⟨[], [], ""⟩ [zeroRecord]).1 ?_,
    ((aggregates_on_empty_and_allzero ⟨[], [], ""⟩ []).2 rfl).1,
    ((aggregates_on_empty_and_allzero ⟨[], [], ""⟩ []).2 rfl).2.1,
    ((aggregates_on_empty_and_allzero ⟨[], [], ""⟩ []).2 rfl).2.2⟩
  intro r hr
  have hr' : r ∈ [zeroRecord] := hr
  rw [List.mem_singleton.mp hr']
  rfl

/-- C4 (amended): on an empty filtered set the leading cause is the sentinel
"None"; on a filtered set containing at least one record with a present
cause, the computation returns (without raising) a cause occurring in the
set whose grouped summed deaths dominates every group.  Which tied maximal
group wins is not asserted: `sort_values` uses its default unstable
quicksort, so only the descending order is guaranteed — the proof relies
only on the sorted output being a descending permutation of the groups.  A
non-empty set whose causes are all missing raises instead (counterexample). -/
theorem leading_cause_max (rs : List CauseRecord) :
    (rs = [] → top_cause_name rs = .ok "None") ∧
    ((∃ r ∈ rs, r.cause.isSome) →
      ∃ c, top_cause_name rs = .ok c ∧
        (∃ r ∈ rs, r.cause = some c) ∧
        (∀ k, (∃ r ∈ rs, r.cause = some k) →
          groupSum rs k ≤ groupSum rs c)) := by
  constructor
  · rintro rfl
    rfl
  · rintro ⟨r0, hr0, hc0⟩
    obtain ⟨c0, hc0p⟩ := Option.isSome_iff_exists.mp hc0
    have hkeys : c0 ∈ keysOf rs := mem_keysOf.mpr ⟨r0, hr0, hc0p⟩
    have hgne : cause_grouped rs ≠ [] := by
      intro h
      rw [cause_grouped] at h
      rw [List.map_eq_nil_iff.mp h] at hkeys
      exact absurd hkeys (List.not_mem_nil _)
    have hne : rs.isEmpty = false := by
      cases hrs : rs.isEmpty
      · rfl
      · rw [List.isEmpty_iff.mp hrs] at hr0
        exact absurd hr0 (List.not_mem_nil _)
    cases hsd : sortDesc (cause_grouped rs) with
    | nil =>
      have hp := sortDesc_perm (cause_grouped rs)
      rw [hsd] at hp
      exact absurd hp.symm.eq_nil hgne
    | cons m t =>
      obtain ⟨hmem, hmax⟩ := sortDesc_head_max hsd
      obtain ⟨c1, v1⟩ := m
      have htop : top_cause_name rs = .ok c1 := by
        rw [top_cause_name, hne, hsd]
        rfl
      obtain ⟨k, hk, hkeq⟩ := List.mem_map.mp (by rw [cause_grouped] at hmem; exact hmem)
      have hk1 : k = c1 := congrArg Prod.fst hkeq
      have hv1 : v1 = groupSum rs c1 := by
        have h2 := congrArg Prod.snd hkeq
        simp only at h2
        rw [← h2, ← hk1]
      refine ⟨c1, htop, ?_, ?_⟩
      · exact mem_keysOf.mp (hk1 ▸ hk)
      · intro kp hkp
        have hkm : kp ∈ keysOf rs := mem_keysOf.mpr hkp
        have hpair : (kp, groupSum rs kp) ∈ cause_grouped rs := by
          rw [cause_grouped]
          exact List.mem_map_of_mem _ hkm
        have hle := hmax _ hpair
        simp only at hle
        rw [← hv1]
        exact hle

/-- The missing-cause record of the C4 counterexample. -/
def nullCauseRecord : CauseRecord :=
  { icdCode := "O95", cause := none, ageGroup := .a30_34, deaths := 5 }

/-- C4 counterexample: a non-empty filtered set whose only record has a
missing cause makes the leading-cause computation raise `IndexError`
(grouping drops the NaN key and `.iloc[0]` hits an empty frame) instead of
returning a maximal cause. -/
theorem leading_cause_null_cause_cex :
    [nullCauseRecord] ≠ ([] : List CauseRecord) ∧
    top_cause_name [nullCauseRecord] = .error "IndexError" := by decide

theorem leading_cause_max_witness :
    top_cause_name hemorrhageRecs = Except.ok "Postpartum Hemorrhage" ∧
    groupSum hemorrhageRecs "Obstructed Labor" ≤
      groupSum hemorrhageRecs "Postpartum Hemorrhage" := by
  obtain ⟨c, hc, hcmem, hcmax⟩ :=
    (leading_cause_max hemorrhageRecs).2 ⟨hr1, by decide, by decide⟩
  have hv : top_cause_name hemorrhageRecs = Except.ok "Postpartum Hemorrhage" := by decide
  have hcc : c = "Postpartum Hemorrhage" := by
    rw [hv] at hc
    injection hc with h2
    exact h2.symm
  refine ⟨hv, ?_⟩
  have hx := hcmax "Obstructed Labor" ⟨hr3, by decide, by decide⟩
  rw [hcc] at hx
  exact hx


/-- The concrete record of the C3 counterexample and witness. -/
def monoRecord : CauseRecord :=
  { icdCode := "O10", cause := some "Eclampsia", ageGroup := .a15_19, deaths := 2 }

/-- C3 counterexample: the empty age selection is component-wise included in a
singleton selection of another age group, yet the result under the former
(the whole table, since empty means no filter) is not a subset of the empty
result under the latter: monotonicity fails at the empty selection. -/
theorem filter_monotone_cex :
    (([] : List AgeGroup).all (fun a => [AgeGroup.a20_24].contains a)) = true ∧
    filtered_cause ⟨[], [], ""⟩ [monoRecord] = [monoRecord] ∧
    filtered_cause ⟨[AgeGroup.a20_24], [], ""⟩ [monoRecord] = [] ∧
    monoRecord ∉ ([] : List CauseRecord) := by decide

/-- C3 (amended): filter monotonicity holds between selections whose
components are non-empty: if the age and island selections of S are
non-empty and component-wise included in those of T, with the same search
string, then every record S filters in, T filters in as well — for the
cause table and the geography table alike.  (An empty component means "no
filter", so growing an empty component can shrink the result set.) -/
theorem filter_monotone_nonempty (S T : Selection) (rsC : List CauseRecord)
    (rsG : List GeoRecord) (hag : S.ages ≠ []) (hig : S.islands ≠ [])
    (hsub1 : ∀ a ∈ S.ages, a ∈ T.ages) (hsub2 : ∀ g ∈ S.islands, g ∈ T.islands)
    (hsearch : S.search = T.search) :
    (∀ r ∈ filtered_cause S rsC, r ∈ filtered_cause T rsC) ∧
    (∀ r ∈ filtered_geo S rsG, r ∈ filtered_geo T rsG) := by
  constructor
  · intro r hr
    rw [mem_filtered_cause] at hr ⊢
    obtain ⟨hmem, hage, hsrch⟩ := hr
    refine ⟨hmem, ?_, ?_⟩
    · rcases hage with h | h
      · exact absurd h hag
      · exact Or.inr (hsub1 _ h)
    · rcases hsrch with h | h
      · exact Or.inl (hsearch ▸ h)
      · exact Or.inr (hsearch ▸ h)
  · intro r hr
    rw [mem_filtered_geo] at hr ⊢
    obtain ⟨hmem, hage, hisl⟩ := hr
    refine ⟨hmem, ?_, ?_⟩
    · rcases hage with h | h
      · exact absurd h hag
      · exact Or.inr (hsub1 _ h)
    · rcases hisl with h | h
      · exact absurd h hig
      · exact Or.inr (hsub2 _ h)

theorem filter_monotone_witness :
    monoRecord ∈ filtered_cause
      ⟨[AgeGroup.a15_19, AgeGroup.a20_24], [IslandGroup.Luzon, IslandGroup.Visayas], ""⟩
      [monoRecord] := by
  have h := filter_monotone_nonempty ⟨[.a15_19], [.Luzon], ""⟩
    ⟨[.a15_19, .a20_24], [.Luzon, .Visayas], ""⟩ [monoRecord] []
    (by decide) (by decide) (by decide) (by decide) rfl
  exact h.1 monoRecord (by decide)

/-- C5 counterexample row: a geography row whose age cells hold the numeral -5. -/
def negRow : GeoRow where
  place := some "NCR"
  total := some "0"
  cells := fun _ => some "-5"

/-- C5 counterexample: the loader does not clamp negative numerals: a source
cell holding "-5" yields a record with deaths = -5 < 0, refuting "the
resulting deaths field is never negative" (only non-numeric or absent cells
are normalized, to 0). -/
theorem deaths_negative_cex :
    (load_geo [negRow]).any (fun r => decide (r.deaths < 0)) = true := by decide

/-- C5 (amended): an absent cell and a non-numeric cell normalize to 0 (never
to a missing marker), while numeric cells pass through unchanged; hence
every record the loader produces has non-negative deaths provided every
numeric source cell is non-negative — a negative numeral passes through. -/
theorem deaths_normalization (rows : List GeoRow)
    (hnn : ∀ row ∈ rows, ∀ a : AgeGroup, ∀ n : Int,
      toNumCell (row.cells a) = some n → 0 ≤ n) :
    (∀ r ∈ load_geo rows, 0 ≤ r.deaths) ∧
    normDeaths none = 0 ∧
    (∀ s : String, parseNum s = none → normDeaths (some s) = 0) := by
  refine ⟨?_, rfl, ?_⟩
  · intro r hr
    simp only [load_geo, List.mem_flatMap, List.mem_map, List.mem_filter] at hr
    obtain ⟨a, ha, row, ⟨hrow, hsome⟩, rfl⟩ := hr
    show 0 ≤ normDeaths (row.cells a)
    rw [normDeaths]
    cases hc : toNumCell (row.cells a) with
    | none => simp
    | some n => simpa using hnn row hrow a n hc
  · intro s hs
    rw [normDeaths, toNumCell]
    simp [hs]

/-- The well-formed row of the C5 witness. -/
def okRow : GeoRow where
  place := some "NCR"
  total := some "27"
  cells := fun _ => some "3"

theorem deaths_normalization_witness :
    ((load_geo [okRow]).all (fun r => decide (0 ≤ r.deaths)) = true) ∧
    normDeaths none = 0 ∧ normDeaths (some "n/a") = 0 := by
  have h := deaths_normalization [okRow] (by
    intro row hrow a n hn
    have hrw : row = okRow := by simpa using hrow
    subst hrw
    have h3 : toNumCell (okRow.cells a) = some 3 := rfl
    rw [h3] at hn
    injection hn with hn'
    omega)
  refine ⟨?_, h.2.1, ?_⟩
  · rw [List.all_eq_true]
    intro x hx
    exact decide_eq_true (h.1 x hx)
  · exact h.2.2 "n/a" (by decide)

/-- The header-echo row of the C6 counterexample. -/
def echoRow : CauseRow where
  icd := some "ICD-10 Code"
  cause := some "Cause"
  total := some "Total"
  cells := fun _ => some "1"

/-- C6 counterexample: a cause row whose ICD column holds the literal header
label "ICD-10 Code" has a non-empty key yet is dropped, so the loader yields
0 records where the claimed formula predicts 9 per non-empty-key row. -/
theorem loader_record_count_cex :
    (load_cause [echoRow]).length ≠
      9 * ([echoRow].filter (fun r => r.icd.isSome)).length := by decide

/-- C6 (amended): the geography loader yields exactly 9 long-form records per
row with a non-empty place key; the cause loader yields exactly 9 records
per row whose ICD key is non-empty and is not the embedded header echo
"ICD-10 Code" (echo rows have a non-empty key but are dropped). -/
theorem loader_record_count (grows : List GeoRow) (crows : List CauseRow) :
    (load_geo grows).length = 9 * (grows.filter (fun r => r.place.isSome)).length ∧
    (load_cause crows).length =
      9 * (crows.filter (fun r =>
        match r.icd with
        | none => false
        | some c => !(c == "ICD-10 Code"))).length := by
  have hpred : (fun r : CauseRow => (!(r.icd.getD "" == "ICD-10 Code")) && r.icd.isSome) =
      (fun r : CauseRow => match r.icd with
        | none => false
        | some c => !(c == "ICD-10 Code")) := by
    funext r
    cases hi : r.icd with
    | none => simp
    | some c => simp
  constructor
  · simp only [load_geo, ageList, List.flatMap_cons, List.flatMap_nil,
      List.length_append, List.length_map, List.length_nil]
    omega
  · simp only [load_cause, List.filter_filter, hpred, ageList, List.flatMap_cons,
      List.flatMap_nil, List.length_append, List.length_map, List.length_nil]
    omega
